import Mathlib

/-!
# Verification of the apalis Redis job storage (`src/packages/apalis-redis/src/storage.rs`)

Shallow embedding of the Redis-backed job store of this repository.  The Rust
side (`storage.rs`) is embedded faithfully; the Lua scripts it loads with
`include_str!("../lua/*.lua")` are not part of the source tree we verify, so
each script's effect is modelled from the specification's description of the
corresponding store operation (every such definition carries a doc comment
starting with `Modelled from the spec:`).

Conventions:
* byte strings produced by the serde/JSON codec are represented by a `Json`
  value (the codec serializes through JSON);
* Redis sorted sets (`done`, `failed`, `dead`, `scheduled`) are association
  lists from member to score, where an insertion (`ZADD`) replaces the score
  of an existing member;
* the Redis hash `data` is an association list from job id to encoded record;
* per-worker in-flight partitions (`{queue}:inflight:<worker>`) are an
  association list from worker id to the list of its job ids;
* timestamps (`Utc::now().timestamp()`, an `i64`) are `Int`.
-/

/-- JSON values, standing in for the byte strings produced by `JsonCodec`. -/
inductive Json where
  | null : Json
  | bool : Bool → Json
  | num : Int → Json
  | str : String → Json
  | arr : List Json → Json
  | obj : List (String × Json) → Json

/-- The `Context` struct of `storage.rs` (line 127): the per-job metadata
stored next to the payload.  `id` is the `TaskId` rendered as a string,
`attempts` the `usize` attempt counter. -/
structure Context where
  id : String
  attempts : Nat
deriving DecidableEq, Repr

/-- Structure `RedisJob<J>` of `storage.rs` (line 93) with the payload already
serialized to JSON: the actual structure of a Redis job, i.e. the payload
plus its `Context`. -/
structure RedisJob where
  ctx : Context
  job : Json

namespace JsonCodec

/-- Modelled from the spec: the codec (`JsonCodec` lives in `apalis-core`,
not in this source tree).  "encode(record) → bytes": the serde-derived JSON
rendering of `RedisJob { ctx, job }` as the object
`{"ctx": {"id": …, "attempts": …}, "job": …}`. -/
def encode (r : RedisJob) : Json :=
  Json.obj [("ctx", Json.obj [("id", Json.str r.ctx.id),
                              ("attempts", Json.num (Int.ofNat r.ctx.attempts))]),
            ("job", r.job)]

/-- Modelled from the spec: "decode(bytes) → record", the inverse direction
of the codec, reading back the object produced by `encode`. -/
def decode : Json → Option RedisJob
  | Json.obj [("ctx", Json.obj [("id", Json.str i),
                                ("attempts", Json.num (Int.ofNat a))]),
              ("job", p)] =>
      some { ctx := { id := i, attempts := a }, job := p }
  | _ => none

end JsonCodec

/-- The `redis::Value` enum, as matched by `deserialize_job`
(`storage.rs` line 519): `Nil`, `Int`, `Data(bytes)`, `Bulk(values)`,
`Status`, `Okay`.  `data` carries the encoded record. -/
inductive RValue where
  | nil : RValue
  | int : Int → RValue
  | data : Json → RValue
  | bulk : List RValue → RValue
  | status : String → RValue
  | okay : RValue

/-- Function `deserialize_job` (`storage.rs` lines 519–540): a `Data` value yields its
bytes; a `Bulk` value yields the bytes of its first element when that is
`Data`; everything else is reported as a decoding failure (`None`). -/
def deserialize_job (job : RValue) : Option Json :=
  let first : Option RValue :=
    match job with
    | RValue.data v => some (RValue.data v)
    | RValue.bulk val => val.head?
    | _ => none
  match first with
  | some (RValue.data v) => some v
  | none => none
  | some _ => none

example : JsonCodec.decode (JsonCodec.encode ⟨⟨"j1", 3⟩, Json.str "x"⟩) =
    some ⟨⟨"j1", 3⟩, Json.str "x"⟩ := rfl

example : deserialize_job (RValue.bulk [RValue.nil]) = none := rfl

/-!
## The store state

One namespace's worth of Redis keys, as named by the constants of
`storage.rs` (lines 34–42) and the key accessors on `Config`.
-/

/-- Association-list lookup keyed by strings: the reading direction of the
Redis commands `HGET`/`ZSCORE`/field access on `consumers`. -/
def alookup {α : Type} : List (String × α) → String → Option α
  | [], _ => none
  | p :: rest, key => if p.1 = key then some p.2 else alookup rest key

/-- Drop every binding of `key` from an association list. -/
def aremove {α : Type} : List (String × α) → String → List (String × α)
  | [], _ => []
  | p :: rest, key => if p.1 = key then aremove rest key else p :: aremove rest key

/-- Association-list update: `HSET`/`ZADD` semantics — a new binding for the
key replaces any existing one (for a sorted set, the member's score is
replaced; ordering by score is irrelevant to every property proved here, so
it is not maintained). -/
def aset {α : Type} (l : List (String × α)) (key : String) (v : α) : List (String × α) :=
  (key, v) :: aremove l key

/-- Remove one member from a Redis set's member list (`SREM` on the values
of an in-flight partition). -/
def srem : List String → String → List String
  | [], _ => []
  | j :: rest, id => if j = id then srem rest id else j :: srem rest id

/-- The state of one queue namespace.

* `data`      — the hash `{queue}:data`: job id → encoded record;
* `pending`   — the list `{queue}:active`: FIFO of pending job ids
  (head = next to be fetched);
* `scheduled` — the sorted set `{queue}:scheduled`: job id → eligibility time;
* `inflight`  — the per-worker sets `{queue}:inflight:<worker_id>`:
  worker id → ids leased to it;
* `done`, `failed`, `dead` — the sorted sets `{queue}:done` / `:failed` /
  `:dead`: job id → timestamp;
* `consumers` — the set `{queue}:consumers`: worker id → last-seen time;
* `signal`    — the length of the signal list `{queue}:signal` (its entries
  carry no information; only pushes to it are observable). -/
structure StoreState where
  data : List (String × Json)
  pending : List String
  scheduled : List (String × Int)
  inflight : List (String × List String)
  done : List (String × Int)
  failed : List (String × Int)
  dead : List (String × Int)
  consumers : List (String × Int)
  signal : Nat

/-- The in-flight partition of one worker (`SMEMBERS {queue}:inflight:<w>`);
an absent key is the empty set. -/
def partitionOf (infl : List (String × List String)) (w : String) : List String :=
  (alookup infl w).getD []

/-- Effect of `SREM {queue}:inflight:<w> id`: drop `id` from worker `w`'s
partition, leaving every other partition alone. -/
def sremPart (infl : List (String × List String)) (w id : String) :
    List (String × List String) :=
  infl.map (fun p => if p.1 = w then (p.1, srem p.2 id) else p)

/-- Effect of `SADD {queue}:inflight:<w> ids…`: extend worker `w`'s
partition.  Adding no members leaves the state untouched. -/
def saddPart (infl : List (String × List String)) (w : String) (ids : List String) :
    List (String × List String) :=
  match ids with
  | [] => infl
  | _ => aset infl w (partitionOf infl w ++ ids)

/-!
## The Lua scripts

The Rust code loads these with `include_str!("../lua/…")` (`storage.rs`
lines 361–379); the `lua/` directory is not part of the tree under
verification, so each script's effect is modelled from the specification's
description of the store operation it implements, applied to the keys and
arguments the Rust caller passes.
-/

namespace Scripts

/-- Modelled from the spec (`lua/ack_job.lua` is missing from the tree):
"ack(worker_id, id): remove `id` from `in_flight[worker_id]`, add to `done`
with current timestamp. No-op if the id is not in the partition
(idempotent)."  Keys passed by the caller: the worker's in-flight set and
the done set; arguments: the task id and `now`. -/
def ack_job (w id : String) (now : Int) (s : StoreState) : StoreState :=
  if id ∈ partitionOf s.inflight w then
    { s with inflight := sremPart s.inflight w id, done := aset s.done id now }
  else s

/-- Modelled from the spec (`lua/push_job.lua` is missing from the tree):
"push(job): write record to `data`, append to `pending`, wake any waiter on
pending."  Keys passed by the caller: the data hash, the active-jobs list
and the signal list; arguments: the job id and the encoded record. -/
def push_job (id : String) (jobBytes : Json) (s : StoreState) : StoreState :=
  { s with data := aset s.data id jobBytes,
           pending := s.pending ++ [id],
           signal := s.signal + 1 }

/-- Modelled from the spec (`lua/schedule_job.lua` is missing from the
tree): "schedule(job, at): like push, but insert into `scheduled` keyed by
`at` instead of `pending`."  Keys passed by the caller: the data hash and
the scheduled set; arguments: the job id, the encoded record and the
eligibility time. -/
def schedule_job (id : String) (jobBytes : Json) (onTime : Int) (s : StoreState) : StoreState :=
  { s with data := aset s.data id jobBytes,
           scheduled := aset s.scheduled id onTime }

/-- Modelled from the spec (`lua/retry_job.lua` is missing from the tree):
the retry path of "retry(worker_id, id, wait)": remove the id from
`in_flight[worker_id]` and insert it into `scheduled` at the given time;
the record bytes arrive already encoded from the Rust caller and are stored
into `data` as given.  Keys passed by the caller: the worker's in-flight
set, the scheduled set and the data hash; arguments: the task id, the
schedule time and the encoded record.  Returns the count `1`. -/
def retry_job (w id : String) (schedTime : Int) (jobBytes : Json) (s : StoreState) :
    StoreState × Int :=
  ({ s with inflight := sremPart s.inflight w id,
            scheduled := aset s.scheduled id schedTime,
            data := aset s.data id jobBytes }, 1)

/-- Modelled from the spec (`lua/kill_job.lua` is missing from the tree):
the store transition of "kill": remove the id from `in_flight[worker_id]`,
add it to `dead` with the timestamp, and persist the caller-provided record
bytes into `data`.  Keys passed by the caller (`storage.rs` lines 804–811):
the worker's in-flight set, the dead set and the data hash — no failed set
— and arguments: the task id, `now` and the encoded record. -/
def kill_job (w id : String) (now : Int) (jobBytes : Json) (s : StoreState) : StoreState :=
  { s with inflight := sremPart s.inflight w id,
           dead := aset s.dead id now,
           data := aset s.data id jobBytes }

/-- Modelled from the spec (`lua/get_jobs.lua` is missing from the tree):
"fetch_batch(worker_id, n): atomically move up to `n` ids from `pending`
head into `in_flight[worker_id]` and return their records. If `pending` is
empty, return empty."  Keys passed by the caller (`storage.rs` lines
489–497): the consumers set, the active list, the worker's in-flight set,
the data hash and the signal list; arguments: the buffer size and the
in-flight set name.  Each returned record is a `Data` value holding the
encoded bytes stored for the id. -/
def get_jobs (w : String) (count : Nat) (s : StoreState) : List RValue × StoreState :=
  let ids := s.pending.take count
  let vals := ids.map (fun id =>
    match alookup s.data id with
    | some j => RValue.data j
    | none => RValue.nil)
  (vals, { s with pending := s.pending.drop count,
                  inflight := saddPart s.inflight w ids })

end Scripts

/-!
## The Rust methods of `RedisStorage<T>`

Transport is not modelled: a call either performs its Redis commands on the
`StoreState` or fails before reaching the store, which the stream embedding
(`stream_tick` below) takes as an explicit outcome.  The `Request<T>`
wrapper of `apalis-core` stores exactly the `TaskId`, `Attempt` and
`Context` extensions inserted by `From<RedisJob<T>>` (`storage.rs` lines
99–107) and is read back by `TryFrom` (lines 109–125); this round trip
preserves the `Context`, so requests are embedded directly as `RedisJob`
values.  `TaskId::new()` generates a fresh UUID outside the store; it is
embedded as an explicit id argument.
-/

namespace RedisStorage

/-- Reply of `HMGET {queue}:data job_id` (`storage.rs` lines 637–641): a
`Bulk` with one entry per requested field, `Nil` when the hash has no such
field. -/
def hmget (s : StoreState) (job_id : String) : RValue :=
  RValue.bulk [match alookup s.data job_id with
               | some j => RValue.data j
               | none => RValue.nil]

/-- Method `fetch_by_id` (`storage.rs` lines 635–656): `HMGET` the data
hash, run `deserialize_job` on the reply, report `None` as the error
"Invalid data returned by storage", otherwise decode the bytes and wrap the
record in `Ok(Some(…))`. -/
def fetch_by_id (s : StoreState) (job_id : String) : Except String (Option RedisJob) :=
  match deserialize_job (hmget s job_id) with
  | none => Except.error "Invalid data returned by storage"
  | some bytes =>
      match JsonCodec.decode bytes with
      | none => Except.error "Decode error"
      | some inner => Except.ok (some inner)

/-- Implementation of `Ack::ack for RedisStorage` (`storage.rs` lines
445–468): invoke `ack_job` with the worker's in-flight set and the done
set, the task id and `Utc::now().timestamp()`. -/
def ack (worker_id task_id : String) (now : Int) (s : StoreState) :
    Except String StoreState :=
  Except.ok (Scripts.ack_job worker_id task_id now s)

/-- Method `push` (`storage.rs` lines 568–592): allocate a fresh `TaskId`
(the `job_id` argument here), build the record with `attempts: 0`, encode
it, and invoke `push_job` with the data hash, the active list and the
signal list.  Returns the allocated id. -/
def push (job : Json) (job_id : String) (s : StoreState) :
    Except String (StoreState × String) :=
  let ctx : Context := { attempts := 0, id := job_id }
  let bytes := JsonCodec.encode { ctx := ctx, job := job }
  Except.ok (Scripts.push_job job_id bytes s, job_id)

/-- Method `kill` (`storage.rs` lines 786–816): fetch the record by id
(`Err("Id not found")` when the fetch returns `Ok(None)`), re-encode it,
and invoke `kill_job` with the worker's in-flight set, the dead set and the
data hash.  The signature carries no failure reason and the failed set is
not among the keys. -/
def kill (worker_id task_id : String) (now : Int) (s : StoreState) :
    Except String StoreState :=
  match fetch_by_id s task_id with
  | Except.error e => Except.error e
  | Except.ok none => Except.error "Id not found"
  | Except.ok (some job) =>
      Except.ok (Scripts.kill_job worker_id task_id now (JsonCodec.encode job) s)

/-- Method `retry` (`storage.rs` lines 735–783): fetch the record, read its
`Attempt` extension; when `attempt.current() >= config.max_retries`, `ZADD`
the id into the failed set at `now` and delegate to `kill`, returning `1`;
otherwise re-encode the record unchanged and invoke `retry_job` with the
worker's in-flight set, the scheduled set and the data hash, passing `now`
as the schedule time.  The method takes no wait duration. -/
def retry (worker_id task_id : String) (now : Int) (max_retries : Nat) (s : StoreState) :
    Except String (StoreState × Int) :=
  match fetch_by_id s task_id with
  | Except.error e => Except.error e
  | Except.ok none => Except.error "Id not found"
  | Except.ok (some job) =>
      if job.ctx.attempts ≥ max_retries then
        let s1 := { s with failed := aset s.failed task_id now }
        match kill worker_id task_id now s1 with
        | Except.error e => Except.error e
        | Except.ok s2 => Except.ok (s2, 1)
      else
        Except.ok (Scripts.retry_job worker_id task_id now (JsonCodec.encode job) s)

/-- First Redis round trip of `reschedule` (`storage.rs` lines 697–701):
`SREM {queue}:inflight:<worker_id> job_id`, a command of its own awaited
before the next one is sent. -/
def reschedule_srem (worker_id job_id : String) (s : StoreState) : StoreState :=
  { s with inflight := sremPart s.inflight worker_id job_id }

/-- Second Redis round trip of `reschedule` (`storage.rs` lines 702–707):
`ZADD {queue}:failed now job_id`, again a command of its own. -/
def reschedule_zadd_failed (job_id : String) (now : Int) (s : StoreState) : StoreState :=
  { s with failed := aset s.failed job_id now }

/-- Method `reschedule` (`storage.rs` lines 673–716): read the `TaskId` and
`WorkerId` from the request, re-encode the record, then issue three
separate awaited store calls in order — the `SREM` from the worker's
in-flight set, the `ZADD` into the failed set at `now`, and the
`schedule_job` script at `now + wait` (`wait` is the duration's whole
seconds). -/
def reschedule (job : RedisJob) (worker_id : String) (now : Int) (wait : Nat)
    (s : StoreState) : StoreState :=
  Scripts.schedule_job job.ctx.id (JsonCodec.encode job) (now + Int.ofNat wait)
    (reschedule_zadd_failed job.ctx.id now (reschedule_srem worker_id job.ctx.id s))

end RedisStorage

/-!
## The job stream

`stream_jobs` (`storage.rs` lines 471–516) is an infinite `try_stream`
loop: sleep, invoke `get_jobs`, then either yield the decoded requests of
the returned batch (where the `?` on a codec failure yields the error and
ends the stream, and a `deserialize_job` failure yields `None`), or — when
the script invocation itself failed — log at warn level and fall through to
the next iteration.  One loop iteration is embedded as `stream_tick`.
-/

/-- Everything one iteration of the `stream_jobs` loop produces: the
requests yielded downstream, the codec error terminating the `try_stream`
(if any), the warn-level log lines, the store state afterwards, and whether
the loop reaches its next iteration. -/
structure TickOutput where
  yielded : List (Option RedisJob)
  errored : Option String
  logs : List String
  state : StoreState
  continues : Bool

/-- The per-batch body of `stream_jobs` (`storage.rs` lines 500–507): for
each value of the batch, `deserialize_job(&job).map(|res| codec.decode(res))
.transpose()?` — a `None` from `deserialize_job` yields `None` downstream,
a codec failure propagates through `?` and ends the stream, and a decoded
record is yielded as a request. -/
def processJobs : List RValue → List (Option RedisJob) × Option String
  | [] => ([], none)
  | v :: rest =>
      match deserialize_job v with
      | none =>
          let out := processJobs rest
          (none :: out.1, out.2)
      | some bytes =>
          match JsonCodec.decode bytes with
          | none => ([], some "Decode error")
          | some r =>
              let out := processJobs rest
              (some r :: out.1, out.2)

/-- One iteration of the `stream_jobs` loop (`storage.rs` lines 487–514).
`transportFailure` is the error of the `get_jobs` invocation when the call
never reached the store (`Err(e)` branch, lines 508–510): the iteration
logs "An error occurred during streaming jobs: …" at warn level and
continues.  Otherwise the script runs and the batch is processed. -/
def stream_tick (worker_id : String) (buffer_size : Nat) (s : StoreState)
    (transportFailure : Option String) : TickOutput :=
  match transportFailure with
  | some e =>
      { yielded := [], errored := none,
        logs := ["An error occurred during streaming jobs: " ++ e],
        state := s, continues := true }
  | none =>
      let out := Scripts.get_jobs worker_id buffer_size s
      let proc := processJobs out.1
      { yielded := proc.1, errored := proc.2, logs := [],
        state := out.2, continues := proc.2.isNone }

/-!
## Helper lemmas
-/

theorem alookup_aset_self {α : Type} (l : List (String × α)) (k : String) (v : α) :
    alookup (aset l k v) k = some v := by
  simp [aset, alookup]

theorem alookup_aremove_ne {α : Type} (l : List (String × α)) (k k' : String) (h : k' ≠ k) :
    alookup (aremove l k) k' = alookup l k' := by
  induction l with
  | nil => rfl
  | cons p rest ih =>
      by_cases hp : p.1 = k
      · have hkk : ¬ (k = k') := fun hh => h hh.symm
        simp [aremove, hp, alookup, hkk, ih]
      · simp [aremove, hp, alookup, ih]

theorem alookup_aset_ne {α : Type} (l : List (String × α)) (k k' : String) (v : α)
    (h : k' ≠ k) : alookup (aset l k v) k' = alookup l k' := by
  have hk : ¬ (k = k') := fun hh => h hh.symm
  simp [aset, alookup, hk]
  exact alookup_aremove_ne l k k' h

theorem srem_not_mem (l : List String) (id : String) : id ∉ srem l id := by
  induction l with
  | nil => simp [srem]
  | cons j rest ih =>
      by_cases hj : j = id
      · simpa [srem, hj] using ih
      · simp [srem, hj, ih]
        exact fun hh => hj hh.symm

theorem partitionOf_sremPart_self (infl : List (String × List String)) (w id : String) :
    partitionOf (sremPart infl w id) w = srem (partitionOf infl w) id := by
  induction infl with
  | nil => rfl
  | cons p rest ih =>
      by_cases hp : p.1 = w
      · simp [sremPart, partitionOf, alookup, hp]
      · simp only [sremPart, partitionOf, alookup, List.map_cons, if_neg hp] at *
        simpa [hp] using ih

theorem partitionOf_sremPart_not_mem (infl : List (String × List String)) (w id : String) :
    id ∉ partitionOf (sremPart infl w id) w := by
  rw [partitionOf_sremPart_self]
  exact srem_not_mem _ id

theorem JsonCodec.decode_encode (r : RedisJob) :
    JsonCodec.decode (JsonCodec.encode r) = some r := by
  cases r with
  | mk ctx job =>
      cases ctx with
      | mk i a => rfl

theorem fetch_by_id_of_data (s : StoreState) (id : String) (r : RedisJob)
    (h : alookup s.data id = some (JsonCodec.encode r)) :
    RedisStorage.fetch_by_id s id = Except.ok (some r) := by
  simp [RedisStorage.fetch_by_id, RedisStorage.hmget, h, deserialize_job,
        JsonCodec.decode_encode]

/-!
## The claims
-/

/-- C5: the codec is an exact round trip — for every well-formed job record
`x` (a `RedisJob` whose payload is any JSON-expressible value),
`decode(encode(x)) == x`; both directions are total functions on these
inputs (`encode` always produces a value, `decode` of an encoded record
always succeeds). -/
theorem redis_codec_roundtrip (x : RedisJob) :
    JsonCodec.decode (JsonCodec.encode x) = some x :=
  JsonCodec.decode_encode x

/-- C3: `ack` is idempotent — whenever an `ack` of `(worker, id)` succeeds
with state `s₁`, repeating it (at any later timestamp) succeeds again and
leaves `s₁` unchanged; and when the id is not in the worker's in-flight
partition to begin with, the `ack` is a no-op on the store state and still
returns success. -/
theorem redis_ack_idempotent (w id : String) (now later : Int) (s s₁ : StoreState)
    (h : RedisStorage.ack w id now s = Except.ok s₁) :
    RedisStorage.ack w id later s₁ = Except.ok s₁ ∧
    (id ∉ partitionOf s.inflight w → s₁ = s) := by
  have hs₁ : s₁ = Scripts.ack_job w id now s := by
    simpa [RedisStorage.ack] using h.symm
  constructor
  · have h2 : id ∉ partitionOf s₁.inflight w := by
      subst hs₁
      by_cases hmem : id ∈ partitionOf s.inflight w
      · have hinf : (Scripts.ack_job w id now s).inflight = sremPart s.inflight w id := by
          simp [Scripts.ack_job, hmem]
        rw [hinf]
        exact partitionOf_sremPart_not_mem s.inflight w id
      · have heq : Scripts.ack_job w id now s = s := by
          simp [Scripts.ack_job, hmem]
        rw [heq]
        exact hmem
    simp [RedisStorage.ack, Scripts.ack_job, h2]
  · intro hmem
    rw [hs₁]
    simp [Scripts.ack_job, hmem]

/-- Witness for C3 at a concrete input: worker `w1` holds job `j1`; the
first `ack` moves it to done, the second is a no-op returning success. -/
def ackWitState : StoreState :=
  { data := [], pending := [], scheduled := [], inflight := [("w1", ["j1"])],
    done := [], failed := [], dead := [], consumers := [], signal := 0 }

theorem redis_ack_idempotent_witness :
    RedisStorage.ack "w1" "j1" 9 (Scripts.ack_job "w1" "j1" 7 ackWitState) =
      Except.ok (Scripts.ack_job "w1" "j1" 7 ackWitState) ∧
    ("j1" ∉ partitionOf ackWitState.inflight "w1" →
      Scripts.ack_job "w1" "j1" 7 ackWitState = ackWitState) :=
  redis_ack_idempotent "w1" "j1" 7 9 ackWitState _ rfl

/-- C9: `fetch_by_id` on an id with no entry in the data hash returns the
error "Invalid data returned by storage" (the `HMGET` reply is
`Bulk([Nil])`, which `deserialize_job` rejects), and on no input does it
return `Ok(None)` despite its `Option`-typed result. -/
theorem redis_fetch_by_id_never_ok_none (s : StoreState) (id : String) :
    (alookup s.data id = none →
      RedisStorage.fetch_by_id s id = Except.error "Invalid data returned by storage") ∧
    RedisStorage.fetch_by_id s id ≠ Except.ok none := by
  constructor
  · intro h
    simp [RedisStorage.fetch_by_id, RedisStorage.hmget, h, deserialize_job]
  · unfold RedisStorage.fetch_by_id RedisStorage.hmget
    cases h : alookup s.data id with
    | none => simp [deserialize_job]
    | some j =>
        simp only [deserialize_job, List.head?]
        cases hd : JsonCodec.decode j <;> simp [hd]

/-- Witness for C9 at a concrete input: the empty store has no record for
`j1`, so `fetch_by_id` errors rather than returning `Ok(None)`. -/
def emptyStore : StoreState :=
  { data := [], pending := [], scheduled := [], inflight := [],
    done := [], failed := [], dead := [], consumers := [], signal := 0 }

theorem redis_fetch_by_id_never_ok_none_witness :
    RedisStorage.fetch_by_id emptyStore "j1" =
      Except.error "Invalid data returned by storage" ∧
    RedisStorage.fetch_by_id emptyStore "j1" ≠ Except.ok none :=
  ⟨(redis_fetch_by_id_never_ok_none emptyStore "j1").1 rfl,
   (redis_fetch_by_id_never_ok_none emptyStore "j1").2⟩

/-- A store holding the single job `j1` (attempts 0, `null` payload), leased
to worker `w1`; nothing terminal yet. -/
def oneJobStore : StoreState :=
  { data := [("j1", JsonCodec.encode ⟨⟨"j1", 0⟩, Json.null⟩)],
    pending := [], scheduled := [], inflight := [("w1", ["j1"])],
    done := [], failed := [], dead := [], consumers := [], signal := 0 }

/-- C2 counterexample: killing `j1` held by `w1` succeeds, records `j1` in
`dead` at the timestamp — but leaves `failed` without it, refuting "adds it
to both the dead and failed collections"; and `kill` has no `reason`
argument to persist (the record's `Context` carries only `id` and
`attempts`, no `last_error` field). -/
theorem redis_kill_ignores_failed_cex :
    (RedisStorage.kill "w1" "j1" 100 oneJobStore).map
        (fun s => (alookup s.failed "j1", alookup s.dead "j1", partitionOf s.inflight "w1"))
      = Except.ok (none, some 100, []) := rfl

/-- C2 (amended): `kill(worker_id, id)` (no reason argument) removes the id
from `in_flight[worker_id]`, adds it to `dead` — and only `dead` — with the
current timestamp, and rewrites the re-encoded record into `data`; the
record has no `last_error` field, so no failure reason is persisted. -/
theorem redis_kill_spec (w id : String) (now : Int) (s : StoreState) (r : RedisJob)
    (hdata : alookup s.data id = some (JsonCodec.encode r)) :
    RedisStorage.kill w id now s =
      Except.ok { s with inflight := sremPart s.inflight w id,
                         dead := aset s.dead id now,
                         data := aset s.data id (JsonCodec.encode r) } := by
  simp [RedisStorage.kill, fetch_by_id_of_data s id r hdata, Scripts.kill_job]

/-- Witness for C2's amended theorem at a concrete input. -/
theorem redis_kill_spec_witness :
    RedisStorage.kill "w1" "j1" 100 oneJobStore =
      Except.ok { oneJobStore with
                    inflight := sremPart oneJobStore.inflight "w1" "j1",
                    dead := aset oneJobStore.dead "j1" 100,
                    data := aset oneJobStore.data "j1"
                              (JsonCodec.encode ⟨⟨"j1", 0⟩, Json.null⟩) } :=
  redis_kill_spec "w1" "j1" 100 oneJobStore ⟨⟨"j1", 0⟩, Json.null⟩ rfl

/-- A store holding the single job `j1` with 4 recorded attempts, leased to
worker `w1`: the boundary case for `max_retries = 5`. -/
def boundaryStore : StoreState :=
  { data := [("j1", JsonCodec.encode ⟨⟨"j1", 4⟩, Json.null⟩)],
    pending := [], scheduled := [], inflight := [("w1", ["j1"])],
    done := [], failed := [], dead := [], consumers := [], signal := 0 }

/-- C1 counterexample: with `max_retries = 5` and `record.attempts = 4` we
have `attempts + 1 ≥ max_retries`, so the claim demands kill-behaviour —
yet `retry` succeeds with the retry path: `j1` is inserted into `scheduled`
at the current time `100` (there is no `wait` argument to add), `dead`
stays empty, and the record is rewritten with `attempts` still `4` (not
incremented). -/
theorem redis_retry_boundary_cex :
    4 + 1 ≥ 5 ∧
    (RedisStorage.retry "w1" "j1" 100 5 boundaryStore).map
        (fun p => (alookup p.1.scheduled "j1", alookup p.1.dead "j1",
                   alookup p.1.data "j1", partitionOf p.1.inflight "w1"))
      = Except.ok (some 100, none,
                   some (JsonCodec.encode ⟨⟨"j1", 4⟩, Json.null⟩), []) :=
  ⟨by decide, rfl⟩

/-- C1 (amended): `retry(worker_id, id)` (no wait argument) behaves as
`kill` — additionally first adding the id to `failed` at the current
timestamp — exactly when `record.attempts ≥ max_retries`; otherwise it
rewrites the record into `data` with `attempts` unchanged, removes the id
from `in_flight[worker_id]`, and inserts it into `scheduled` at the current
time `now`. -/
theorem redis_retry_spec (w id : String) (now : Int) (maxR : Nat) (s : StoreState)
    (r : RedisJob) (hdata : alookup s.data id = some (JsonCodec.encode r)) :
    RedisStorage.retry w id now maxR s =
      (if r.ctx.attempts ≥ maxR then
        Except.ok ({ s with failed := aset s.failed id now,
                            inflight := sremPart s.inflight w id,
                            dead := aset s.dead id now,
                            data := aset s.data id (JsonCodec.encode r) }, 1)
      else
        Except.ok ({ s with inflight := sremPart s.inflight w id,
                            scheduled := aset s.scheduled id now,
                            data := aset s.data id (JsonCodec.encode r) }, 1)) := by
  have hf := fetch_by_id_of_data s id r hdata
  by_cases hA : r.ctx.attempts ≥ maxR
  · have hf1 : RedisStorage.fetch_by_id { s with failed := aset s.failed id now } id =
        Except.ok (some r) := fetch_by_id_of_data _ id r hdata
    simp [RedisStorage.retry, hf, hA, RedisStorage.kill, hf1, Scripts.kill_job]
  · simp [RedisStorage.retry, hf, hA, Scripts.retry_job]

/-- Witness for C1's amended theorem at a concrete input (the kill branch:
`attempts = 4 ≥ max_retries = 3`). -/
theorem redis_retry_spec_witness :
    RedisStorage.retry "w1" "j1" 100 3 boundaryStore =
      (if (4 : Nat) ≥ 3 then
        Except.ok ({ boundaryStore with
                       failed := aset boundaryStore.failed "j1" 100,
                       inflight := sremPart boundaryStore.inflight "w1" "j1",
                       dead := aset boundaryStore.dead "j1" 100,
                       data := aset boundaryStore.data "j1"
                                 (JsonCodec.encode ⟨⟨"j1", 4⟩, Json.null⟩) }, 1)
      else
        Except.ok ({ boundaryStore with
                       inflight := sremPart boundaryStore.inflight "w1" "j1",
                       scheduled := aset boundaryStore.scheduled "j1" 100,
                       data := aset boundaryStore.data "j1"
                                 (JsonCodec.encode ⟨⟨"j1", 4⟩, Json.null⟩) }, 1)) :=
  redis_retry_spec "w1" "j1" 100 3 boundaryStore ⟨⟨"j1", 4⟩, Json.null⟩ rfl

/-- C4 at its failing input: job `j1` leased to `w1`.  The code's
`reschedule` is three separately awaited Redis round trips (`SREM` from
in-flight, `ZADD` into failed, then the schedule script), not one atomic
step: after the first two commands the store is in an observable
intermediate state — `j1` already gone from the in-flight partition and
marked failed, but not yet in `scheduled` — differing from both the
initial state and the final state, contrary to "a failure partway leaves
the store as it was".  The three conjuncts evaluate the three touched keys
initially, between the second and third commands, and at completion. -/
theorem redis_reschedule_intermediate_state :
    (partitionOf oneJobStore.inflight "w1", alookup oneJobStore.failed "j1",
      alookup oneJobStore.scheduled "j1") = (["j1"], none, none) ∧
    (let mid := RedisStorage.reschedule_zadd_failed "j1" 100
                  (RedisStorage.reschedule_srem "w1" "j1" oneJobStore);
      (partitionOf mid.inflight "w1", alookup mid.failed "j1",
        alookup mid.scheduled "j1")) = ([], some 100, none) ∧
    (let fin := RedisStorage.reschedule ⟨⟨"j1", 0⟩, Json.null⟩ "w1" 100 30 oneJobStore;
      (partitionOf fin.inflight "w1", alookup fin.failed "j1",
        alookup fin.scheduled "j1")) = ([], some 100, some 130) :=
  ⟨rfl, rfl, rfl⟩

/-- C10: every successful `reschedule` records the job id in `failed` at
the current timestamp and inserts it into `scheduled` at `now + wait` —
even when the job is merely being retried rather than terminally failed;
and the failed-set insertion comes first: after the second of the three
commands, `failed` already holds the id while `scheduled` is still exactly
as it was. -/
theorem redis_reschedule_marks_failed (r : RedisJob) (w : String) (now : Int)
    (wait : Nat) (s : StoreState) :
    alookup (RedisStorage.reschedule r w now wait s).failed r.ctx.id = some now ∧
    alookup (RedisStorage.reschedule r w now wait s).scheduled r.ctx.id
      = some (now + Int.ofNat wait) ∧
    alookup (RedisStorage.reschedule_zadd_failed r.ctx.id now
              (RedisStorage.reschedule_srem w r.ctx.id s)).failed r.ctx.id = some now ∧
    (RedisStorage.reschedule_zadd_failed r.ctx.id now
              (RedisStorage.reschedule_srem w r.ctx.id s)).scheduled = s.scheduled :=
  ⟨alookup_aset_self _ _ _, alookup_aset_self _ _ _, alookup_aset_self _ _ _, rfl⟩

/-- C6: with `pending` empty, `get_jobs` succeeds with the empty batch and
leaves the store untouched, and the corresponding iteration of the job
stream yields no element, logs nothing, and continues rather than
terminating. -/
theorem redis_fetch_batch_empty (w : String) (n : Nat) (s : StoreState)
    (h : s.pending = []) :
    Scripts.get_jobs w n s = ([], s) ∧
    stream_tick w n s none =
      { yielded := [], errored := none, logs := [], state := s, continues := true } := by
  have hg : Scripts.get_jobs w n s = ([], s) := by
    obtain ⟨d, pend, sch, infl, dn, fl, dd, cs, sig⟩ := s
    simp only at h
    subst h
    simp [Scripts.get_jobs, saddPart]
  exact ⟨hg, by simp [stream_tick, hg, processJobs]⟩

/-- Witness for C6 at a concrete input: the empty store. -/
theorem redis_fetch_batch_empty_witness :
    Scripts.get_jobs "w1" 10 emptyStore = ([], emptyStore) ∧
    stream_tick "w1" 10 emptyStore none =
      { yielded := [], errored := none, logs := [], state := emptyStore,
        continues := true } :=
  redis_fetch_batch_empty "w1" 10 emptyStore rfl

/-- C7: when the `get_jobs` invocation fails with a transient store error,
the stream iteration yields nothing, logs the error at warn level
("An error occurred during streaming jobs: …"), leaves the store state as
it was, and continues to the next fetch iteration — a store error never
terminates the stream. -/
theorem redis_stream_error_continues (w : String) (n : Nat) (s : StoreState)
    (e : String) :
    stream_tick w n s (some e) =
      { yielded := [], errored := none,
        logs := ["An error occurred during streaming jobs: " ++ e],
        state := s, continues := true } := rfl

/-- C8: `push` encodes the payload under a freshly allocated id with
`attempts = 0`, writes it to the data hash, appends the id to `pending`,
pushes a wake-up signal, and returns the allocated id; the stored record
decodes back to the `attempts = 0` record. -/
theorem redis_push_spec (job : Json) (id : String) (s : StoreState) :
    RedisStorage.push job id s =
      Except.ok ({ s with data := aset s.data id (JsonCodec.encode ⟨⟨id, 0⟩, job⟩),
                          pending := s.pending ++ [id],
                          signal := s.signal + 1 }, id) ∧
    (alookup (aset s.data id (JsonCodec.encode ⟨⟨id, 0⟩, job⟩)) id).bind JsonCodec.decode
      = some ⟨⟨id, 0⟩, job⟩ := by
  constructor
  · rfl
  · rw [alookup_aset_self]
    simp [JsonCodec.decode_encode]
